import Mathlib

/-!
Shallow embedding of the illumination-correction operator of the cytokit
pipeline (`src/python/pipeline/codex/ops/illumination_correction.py`),
together with theorems settling the frozen claims about it.

Numeric conventions: numpy floating point values are modelled as exact
rationals (`ℚ`); machine integer dtypes carry explicit `[min, max]` bounds
taken from `numpy.iinfo`.  Arrays are modelled positionally: a 5D tile is a
total function from its five indices to a value, together with its extents
and dtype; a 2D illumination image is a row-major list of pixels with its
extents.
-/

namespace Cytokit

/-- Errors surfaced by the operator (section 7 of the design: all fail-fast
ValueError/KeyError/TypeError raises in the Python source). -/
inductive CorrErr where
  | invalidFilterRange
  | emptyInput
  | emptyFilterResult
  | degenerateSignal
  | notPrepared
  | unpreparedRegion
  | invalidDtype
  deriving DecidableEq, Repr

/-- Numpy element types a tile can carry. -/
inductive Dtype where
  | uint8 | uint16 | uint32 | uint64
  | int8 | int16 | int32 | int64
  | float16 | float32 | float64
  deriving DecidableEq, Repr

/-- Integer type information: the representable bounds, as `numpy.iinfo`. -/
structure IInfo where
  min : ℤ
  max : ℤ
  deriving DecidableEq, Repr

/-- Whether the dtype is an integer dtype (`numpy.iinfo` only accepts these). -/
def Dtype.isInt : Dtype → Bool
  | .float16 | .float32 | .float64 => false
  | _ => true

/-- `numpy.iinfo(dtype)`: bounds for integer dtypes, a raise (error) for
floating point dtypes. -/
def iinfo : Dtype → Except CorrErr IInfo
  | .uint8 => .ok ⟨0, 255⟩
  | .uint16 => .ok ⟨0, 65535⟩
  | .uint32 => .ok ⟨0, 4294967295⟩
  | .uint64 => .ok ⟨0, 18446744073709551615⟩
  | .int8 => .ok ⟨-128, 127⟩
  | .int16 => .ok ⟨-32768, 32767⟩
  | .int32 => .ok ⟨-2147483648, 2147483647⟩
  | .int64 => .ok ⟨-9223372036854775808, 9223372036854775807⟩
  | .float16 => .error .invalidDtype
  | .float32 => .error .invalidDtype
  | .float64 => .error .invalidDtype

/-- `ndarray.clip(lo, hi)` on one element: saturate the value into `[lo, hi]`. -/
def clip (v : ℚ) (lo hi : ℤ) : ℚ := min (max v (lo : ℚ)) (hi : ℚ)

/-- `ndarray.astype(<integer dtype>)` on one element: C-style truncation
toward zero. -/
def truncToInt (q : ℚ) : ℤ := if 0 ≤ q then ⌊q⌋ else ⌈q⌉

/-- The contents of a 5D array, indexed by (cycle, z, channel, row, column). -/
def TileData := ℕ → ℕ → ℕ → ℕ → ℕ → ℚ

/-- A 5D tile: extents per axis, element dtype, and contents. -/
structure Tile where
  cycles : ℕ
  zplanes : ℕ
  channels : ℕ
  height : ℕ
  width : ℕ
  dtype : Dtype
  data : TileData

/-- Grid coordinates of a tile (`tile_indices`). -/
structure TileIndices where
  region_index : ℕ
  tile_x : ℕ
  tile_y : ℕ
  deriving DecidableEq, Repr

/-- A dense 2D illumination image: row-major pixel list plus extents and the
element dtype it was cast to. -/
structure Image where
  height : ℕ
  width : ℕ
  dtype : Dtype
  pix : List ℚ

/-- Pixel access `img[y, x]` on the row-major list. -/
def Image.at (im : Image) (y x : ℕ) : ℚ := im.pix.getD (y * im.width + x) 0

/-- `imgs[channel][y, x]` for the per-channel ordered dictionary of a
region's illumination images. -/
def imageAt (imgs : List (String × Image)) (ch : String) (y x : ℕ) : ℚ :=
  match imgs.lookup ch with
  | some im => im.at y x
  | none => 0

/-- Experiment geometry and channel layout consumed from the configuration
(`tile_height`, `tile_width`, `region_height`, `region_width` in tiles, and
`config.get_channel_coordinates` resolving a channel name to a
(cycle, channel-index) pair). -/
structure Config where
  tile_height : ℕ
  tile_width : ℕ
  region_height : ℕ
  region_width : ℕ
  get_channel_coordinates : String → ℕ × ℕ

/-- A fitted per-channel regression model (`GradientBoostingRegressor` after
`fit`), viewed through its prediction function on (ry, rx) coordinates. -/
def Model := ℚ → ℚ → ℚ

/-- One region's cached pair `(imgs, ests)` of illumination images and fitted
models, keyed by source channel. -/
structure RegionCacheEntry where
  imgs : List (String × Image)
  ests : List (String × Model)

/-- Mutable operator state: `self.data` (None until prepared, then a map from
`region_index` to its cache entry) and `self.data_saved`. -/
structure OpState where
  data : Option (List (ℕ × RegionCacheEntry))
  data_saved : Bool

/-- Fresh operator state as left by `__init__` (`data = None`,
`data_saved = False`). -/
def initState : OpState := ⟨none, false⟩

/-- Operator parameters resolved by `__init__` from
`config.illumination_correction_params`. -/
structure OpParams where
  channel_mapping : List (String × String)
  filter_range : List ℚ
  max_cells : ℕ
  n_estimators : ℕ
  filter_features : List String

/-- Fixed random seed used for downsampling (`SEED = 5512`). -/
def SEED : ℕ := 5512

/-- Default percentile filter range (`DEFAULT_FILTER_RANGE = [.1, .9]`). -/
def DEFAULT_FILTER_RANGE : List ℚ := [1/10, 9/10]

/-- Default extra filter features (`DEFAULT_FILTER_FEATURES`). -/
def DEFAULT_FILTER_FEATURES : List String := ["cell_diameter"]

/-- The `filter_range` validation performed by `__init__`: a raise when the
resolved value is `None`, not of length 2, or has a bound outside `[0, 1]`;
otherwise the range is accepted unchanged. -/
def initFilterRange (fr : Option (List ℚ)) : Except CorrErr (List ℚ) :=
  match fr with
  | none => .error .invalidFilterRange
  | some l =>
    if l.length ≠ 2 then .error .invalidFilterRange
    else if l.all fun v => decide (0 ≤ v) && decide (v ≤ 1) then .ok l
    else .error .invalidFilterRange

/-- One step of the `_run` correction loop: apply the adjustment of a single
`(source_channel, target_channel)` mapping entry to the float tile contents.
The illumination image of the source channel is sliced at offset `(r, c)`;
an `"all"` target divides every element, a specific target divides only the
(z, row, column) sub-array at the resolved (cycle, channel) coordinate. -/
def applyEntry (cfg : Config) (imgs : List (String × Image)) (r c : ℕ)
    (t : TileData) (e : String × String) : TileData :=
  if e.2 = "all" then
    fun cyc zp ch y x => t cyc zp ch y x / imageAt imgs e.1 (r + y) (c + x)
  else
    let p := cfg.get_channel_coordinates e.2
    fun cyc zp ch y x =>
      if cyc = p.1 ∧ ch = p.2 then t cyc zp ch y x / imageAt imgs e.1 (r + y) (c + x)
      else t cyc zp ch y x

/-- The corrected float contents of a tile before clipping: the fold of
`applyEntry` over the sorted channel mapping (the loop body of `_run`). -/
def correctedFloat (op : OpParams) (cfg : Config) (imgs : List (String × Image))
    (r c : ℕ) (t : TileData) : TileData :=
  op.channel_mapping.foldl (applyEntry cfg imgs r c) t

/-- `IlluminationCorrection._run(tile, tile_indices)`: look up the region's
illumination images, read the integer type info of the tile dtype, slice each
source channel's image at the tile's offset and divide, then clip to the
dtype bounds and cast back. -/
def run (op : OpParams) (cfg : Config) (st : OpState) (tile : Tile)
    (ti : TileIndices) : Except CorrErr Tile :=
  match st.data with
  | none => .error .notPrepared
  | some es =>
    match es.lookup ti.region_index with
    | none => .error .unpreparedRegion
    | some entry =>
      match iinfo tile.dtype with
      | .error e => .error e
      | .ok dinfo =>
        let r := ti.tile_y * cfg.tile_height
        let c := ti.tile_x * cfg.tile_width
        let tf := correctedFloat op cfg entry.imgs r c tile.data
        .ok { tile with data := fun cyc zp ch y x =>
                ((truncToInt (clip (tf cyc zp ch y x) dinfo.min dinfo.max) : ℤ) : ℚ) }

/-- One cytometry record: region index, region-relative centroid coordinates
`ry`, `rx`, and a feature lookup giving the intensity and morphological
columns by name. -/
structure CellRecord where
  region_index : ℕ
  ry : ℚ
  rx : ℚ
  feat : String → ℚ

instance : Inhabited CellRecord := ⟨⟨0, 0, 0, fun _ => 0⟩⟩

/-- Modelled from `pandas.DataFrame.quantile` (external library, default
linear interpolation): sort the column ascending, take fractional index
`q * (n - 1)` and interpolate linearly between the two neighbouring order
statistics. -/
def quantile (xs : List ℚ) (q : ℚ) : ℚ :=
  let s := List.insertionSort (fun a b => a ≤ b) xs
  let pos : ℚ := q * ((xs.length : ℚ) - 1)
  let i : ℕ := (⌊pos⌋).toNat
  let lo := s.getD i 0
  let hi := s.getD (i + 1) lo
  lo + (pos - (⌊pos⌋ : ℤ)) * (hi - lo)

/-- `Series.between(left, right)`: inclusive range membership. -/
def between (left right v : ℚ) : Bool := decide (left ≤ v) && decide (v ≤ right)

/-- `get_filter_masks(df, features)`: one boolean column per feature, true
where the record's value lies between the feature's low and high quantile
thresholds (the two rows of `df[features].quantile(q=self.filter_range)`). -/
def get_filter_masks (op : OpParams) (df : List CellRecord)
    (features : List String) : List (List Bool) :=
  features.map fun c =>
    df.map fun rec => between
      (quantile (df.map fun r2 => r2.feat c) (op.filter_range.getD 0 0))
      (quantile (df.map fun r2 => r2.feat c) (op.filter_range.getD 1 0))
      (rec.feat c)

/-- `.all(axis=1)` over the stacked mask columns: position `i` is kept when
every feature's mask is true there. -/
def maskAll (masks : List (List Bool)) (i : ℕ) : Bool :=
  masks.all fun m => m.getD i false

/-- Modelled from the spec: a channel's intensity column is named by a fixed
prefix-plus-channel-name convention; the prefix constant itself lives in the
external cytometer module (`DEFAULT_CHANNEL_PREFIX`). -/
def channelFeature (channel : String) : String := "ni:" ++ channel

/-- Modelled from the spec: a seeded pseudo-random key stream for
deterministic downsampling. -/
def sampleKey (seed i : ℕ) : ℕ := (1103515245 * (seed + i) + 12345) % 2147483648

/-- Modelled from the spec: `DataFrame.sample(n=..., random_state=seed)` is
an external pandas routine required only to be a deterministic, explicitly
seeded uniform selection without replacement; here positions are ordered by
the seeded key stream and the first `n` are kept. -/
def sampleDet {α : Type _} (seed n : ℕ) (xs : List α) : List α :=
  ((List.insertionSort (fun a b => sampleKey seed a.1 ≤ sampleKey seed b.1)
    xs.enum).map Prod.snd).take n

/-- The filter feature list for a channel: its own intensity column plus the
configured extra filter features. -/
def channelFilterFeatures (op : OpParams) (channel : String) : List String :=
  channelFeature channel :: op.filter_features

/-- Line 97 of the source: restrict the records to those whose combined
filter mask is true
(`df[self.get_filter_masks(df, filter_features).all(axis=1).values]`). -/
def filteredRecords (op : OpParams) (df : List CellRecord)
    (features : List String) : List CellRecord :=
  ((df.enum.filter fun p => maskAll (get_filter_masks op df features) p.1).map
    Prod.snd)

/-- The records a channel's model is fit on: filtered, then deterministically
downsampled to `max_cells` when more than `max_cells` remain. -/
def select_channel_records (op : OpParams) (df : List CellRecord)
    (channel : String) : List CellRecord :=
  let dfm := filteredRecords op df (channelFilterFeatures op channel)
  if op.max_cells < dfm.length then sampleDet SEED op.max_cells dfm else dfm

/-- Column mean (`Series.mean`). -/
def mean (xs : List ℚ) : ℚ := xs.sum / (xs.length : ℚ)

/-- Absolute tolerance of `numpy.isclose(x, 0)`: `atol = 1e-8` (the relative
part scales the zero reference and contributes nothing). -/
def ATOL : ℚ := 1 / 100000000

/-- Loop body of `get_illumination_models` for one channel: filter and
downsample the records, fail on an empty selection, fail when the mean
intensity is within tolerance of zero, else fit the regressor (abstracted as
`fit`, taking `n_estimators`) on the mean-normalized intensities. -/
def fit_channel (fit : ℕ → List (ℚ × ℚ) → List ℚ → Model) (op : OpParams)
    (df : List CellRecord) (channel : String) : Except CorrErr Model :=
  let dfm := select_channel_records op df channel
  if dfm.length = 0 then .error .emptyFilterResult
  else
    let X := dfm.map fun rec => (rec.ry, rec.rx)
    let y := dfm.map fun rec => rec.feat (channelFeature channel)
    if |mean y| ≤ ATOL then .error .degenerateSignal
    else .ok (fit op.n_estimators X (y.map fun v => v / mean y))

instance : Inhabited Model := ⟨fun _ _ => 0⟩

instance : Inhabited Image := ⟨⟨0, 0, .float32, []⟩⟩

/-- The row-major prediction list of `get_illumination_images`: the model is
evaluated on `np.transpose([np.repeat(np.arange(r), c), np.tile(np.arange(c),
r)])`, i.e. all columns of row 0, then row 1, and so on. -/
def predictGrid (est : Model) (r c : ℕ) : List ℚ :=
  (List.range r).flatMap fun (y : ℕ) =>
    (List.range c).map fun (x : ℕ) => est (y : ℚ) (x : ℚ)

/-- `get_illumination_images(ests)`: for each channel, predict the intensity
at every pixel of the whole region (rows `region_height * tile_height`,
columns `region_width * tile_width`), reshape row-major, and cast to
float32. -/
def get_illumination_images (cfg : Config) (ests : List (String × Model)) :
    List (String × Image) :=
  let r := cfg.region_height * cfg.tile_height
  let c := cfg.region_width * cfg.tile_width
  ests.map fun e => (e.1, ⟨r, c, Dtype.float32, predictGrid e.2 r c⟩)

/-- `get_illumination_models(region_index, df)`: fit one model per source
channel of the channel mapping, in its (sorted) iteration order, failing
fast on the first channel error. -/
def get_illumination_models (fit : ℕ → List (ℚ × ℚ) → List ℚ → Model)
    (op : OpParams) (df : List CellRecord) :
    Except CorrErr (List (String × Model)) :=
  op.channel_mapping.mapM fun e => do
    let m ← fit_channel fit op df e.1
    pure (e.1, m)

/-- The distinct region indices of the record set in ascending order, as
enumerated by `df.groupby('region_index')`. -/
def regionKeys (df : List CellRecord) : List ℕ :=
  List.insertionSort (fun a b => a ≤ b)
    (df.map fun rec => rec.region_index).dedup

/-- The per-region loop of `prepare_region_data`: for each region index in
group order, fit the models on that region's records, render the images,
and key the (images, models) pair by the region index. -/
def buildEntries (fit : ℕ → List (ℚ × ℚ) → List ℚ → Model) (op : OpParams)
    (cfg : Config) (df : List CellRecord) :
    List ℕ → Except CorrErr (List (ℕ × RegionCacheEntry))
  | [] => .ok []
  | k :: ks => do
    let ests ← get_illumination_models fit op
      (df.filter fun rec => rec.region_index == k)
    let rest ← buildEntries fit op cfg df ks
    pure ((k, ⟨get_illumination_images cfg ests, ests⟩) :: rest)

/-- `prepare_region_data(output_dir)`: a no-op when the cache is already
populated; otherwise fail on an empty record set, else build and store all
per-region cache entries. -/
def prepare_region_data (fit : ℕ → List (ℚ × ℚ) → List ℚ → Model)
    (op : OpParams) (cfg : Config) (st : OpState) (df : List CellRecord) :
    Except CorrErr OpState :=
  match st.data with
  | some _ => .ok st
  | none =>
    if df.length = 0 then .error .emptyInput
    else do
      let entries ← buildEntries fit op cfg df (regionKeys df)
      pure { st with data := some entries }

/-- `save_region_data(output_dir)`: error when unprepared, return without
writing when already saved, else write one stacked image artifact per region
(represented here by its region-indexed path) and set the saved flag. -/
def save_region_data (st : OpState) : Except CorrErr (OpState × List ℕ) :=
  match st.data with
  | none => .error .notPrepared
  | some es =>
    if st.data_saved then .ok (st, [])
    else .ok ({ st with data_saved := true }, es.map Prod.fst)

/-- A call against the region data cache. -/
inductive CacheOp where
  | prep (df : List CellRecord)
  | persist

/-- One cache call: an error propagates to the caller leaving the state
unchanged and writing nothing; writes are collected. -/
def stepOp (fit : ℕ → List (ℚ × ℚ) → List ℚ → Model) (op : OpParams)
    (cfg : Config) (st : OpState) : CacheOp → OpState × List ℕ
  | .prep df =>
    match prepare_region_data fit op cfg st df with
    | .ok st2 => (st2, [])
    | .error _ => (st, [])
  | .persist =>
    match save_region_data st with
    | .ok sw => sw
    | .error _ => (st, [])

/-- Run a sequence of cache calls, accumulating written artifacts. -/
def runOps (fit : ℕ → List (ℚ × ℚ) → List ℚ → Model) (op : OpParams)
    (cfg : Config) : OpState → List CacheOp → OpState × List ℕ
  | st, [] => (st, [])
  | st, c :: cs =>
    let sw := stepOp fit op cfg st c
    let rest := runOps fit op cfg sw.1 cs
    (rest.1, sw.2 ++ rest.2)

/-- Cache-key invariant: whenever the cache is populated, its region keys
are distinct. -/
def CacheInv (st : OpState) : Prop :=
  ∀ es, st.data = some es → (es.map Prod.fst).Nodup

/-! Concrete fixtures used by the witness theorems. -/

/-- A single constant-one fitted model keyed by channel DAPI. -/
def exEsts : List (String × Model) := [("DAPI", fun _ _ => 1)]

/-- A record of region 0 at (1, 1) with the given cell diameter and constant
intensity 100 in every other column. -/
def exRec (d : ℚ) : CellRecord :=
  ⟨0, 1, 1, fun s => if s = "cell_diameter" then d else 100⟩

/-- Three records with diameters 4, 5 and 6. -/
def exDf : List CellRecord := [exRec 4, exRec 5, exRec 6]

/-- A single-record data set. -/
def exDf1 : List CellRecord := [exRec 5]

/-- A concrete stand-in for the external regressor fit: the constant-one
surface. -/
def exFit : ℕ → List (ℚ × ℚ) → List ℚ → Model := fun _ _ _ => fun _ _ => 1

/-- Parameters with `max_cells = 0`, forcing downsampling on any record. -/
def exOpZero : OpParams := ⟨[("DAPI", "all")], DEFAULT_FILTER_RANGE, 0, 25,
  DEFAULT_FILTER_FEATURES⟩

/-- A 2×2 all-ones float32 illumination image. -/
def exImage : Image := ⟨2, 2, .float32, [1, 1, 1, 1]⟩

/-- A cache entry holding the one illumination image for channel DAPI. -/
def exEntry : RegionCacheEntry := ⟨[("DAPI", exImage)], []⟩

/-- A one-region cache, region index 0. -/
def exEs : List (ℕ × RegionCacheEntry) := [(0, exEntry)]

/-- A prepared, not-yet-persisted operator state. -/
def exState : OpState := ⟨some exEs, false⟩

/-- A 1×1-tile region of 2×2-pixel tiles, every channel resolving to (0, 0). -/
def exCfg : Config := ⟨2, 2, 1, 1, fun _ => (0, 0)⟩

/-- Parameters mapping source channel DAPI to every channel. -/
def exOp : OpParams := ⟨[("DAPI", "all")], DEFAULT_FILTER_RANGE, 100000, 25,
  DEFAULT_FILTER_FEATURES⟩

/-- A uint8 tile of constant value 7 with a single (cycle, z, channel). -/
def exTile : Tile := ⟨1, 1, 1, 2, 2, .uint8, fun _ _ _ _ _ => 7⟩

/-- The same tile contents carried with a floating-point dtype. -/
def exTileF : Tile := ⟨1, 1, 1, 2, 2, .float32, fun _ _ _ _ _ => 7⟩

/-- Grid position of the only tile of region 0. -/
def exTi : TileIndices := ⟨0, 0, 0⟩

/-- Grid position referencing a region absent from the cache. -/
def exTi5 : TileIndices := ⟨5, 0, 0⟩

lemma iinfo_of_isInt {d : Dtype} (h : d.isInt = true) :
    ∃ i, iinfo d = .ok i ∧ i.min ≤ i.max := by
  cases d <;> simp_all [Dtype.isInt, iinfo]

lemma truncToInt_intCast (n : ℤ) : truncToInt (n : ℚ) = n := by
  unfold truncToInt
  split <;> simp

lemma clip_mem {lo hi : ℤ} (h : lo ≤ hi) (v : ℚ) :
    (lo : ℚ) ≤ clip v lo hi ∧ clip v lo hi ≤ (hi : ℚ) := by
  unfold clip
  constructor
  · exact le_min (le_trans (le_max_right _ _) (le_refl _)) (by exact_mod_cast h)
  · exact min_le_right _ _

lemma truncToInt_mem {lo hi : ℤ} {v : ℚ} (hl : (lo : ℚ) ≤ v) (hr : v ≤ (hi : ℚ)) :
    lo ≤ truncToInt v ∧ truncToInt v ≤ hi := by
  unfold truncToInt
  split
  · exact ⟨Int.le_floor.mpr hl, le_trans (Int.floor_le_floor hr) (le_of_eq (Int.floor_intCast hi))⟩
  · exact ⟨le_trans (le_of_eq (Int.ceil_intCast lo).symm) (Int.ceil_le_ceil hl),
      Int.ceil_le.mpr hr⟩

lemma initFilterRange_some_eq (l : List ℚ) :
    initFilterRange (some l) =
      if l.length = 2 ∧ ∀ v ∈ l, 0 ≤ v ∧ v ≤ 1 then .ok l
      else .error .invalidFilterRange := by
  simp only [initFilterRange]
  by_cases h2 : l.length = 2 <;> by_cases hall : ∀ v ∈ l, 0 ≤ v ∧ v ≤ 1 <;>
    simp [h2, hall, List.all_eq_true]

lemma clipped_bounds {lo hi : ℤ} (h : lo ≤ hi) (v : ℚ) :
    (lo : ℚ) ≤ ((truncToInt (clip v lo hi) : ℤ) : ℚ) ∧
    ((truncToInt (clip v lo hi) : ℤ) : ℚ) ≤ (hi : ℚ) ∧
    ((hi : ℚ) < v → ((truncToInt (clip v lo hi) : ℤ) : ℚ) = (hi : ℚ)) ∧
    (v < (lo : ℚ) → ((truncToInt (clip v lo hi) : ℤ) : ℚ) = (lo : ℚ)) := by
  obtain ⟨h1, h2⟩ := clip_mem h v
  obtain ⟨h3, h4⟩ := truncToInt_mem h1 h2
  refine ⟨by exact_mod_cast h3, by exact_mod_cast h4, ?_, ?_⟩
  · intro hv
    have hcl : clip v lo hi = (hi : ℚ) := by
      unfold clip
      exact min_eq_right (le_trans (le_of_lt hv) (le_max_left _ _))
    rw [hcl, truncToInt_intCast]
  · intro hv
    have hcl : clip v lo hi = (lo : ℚ) := by
      unfold clip
      rw [max_eq_right (le_of_lt hv)]
      exact min_eq_left (by exact_mod_cast h)
    rw [hcl, truncToInt_intCast]

lemma getD_map_of_lt {α β : Type _} (f : α → β) (l : List α) (i : ℕ) (d : β)
    (dd : α) (h : i < l.length) : (l.map f).getD i d = f (l.getD i dd) := by
  simp [List.getD_eq_getElem?_getD, List.getElem?_map, List.getElem?_eq_getElem h]

lemma quantile_singleton (v q : ℚ) : quantile [v] q = v := by
  simp [quantile, List.insertionSort, List.orderedInsert]

lemma maskAll_singleton (op : OpParams) (r : CellRecord) (features : List String) :
    maskAll (get_filter_masks op [r] features) 0 = true := by
  rw [maskAll, List.all_eq_true]
  intro m hm
  rw [get_filter_masks, List.mem_map] at hm
  obtain ⟨c, hc, rfl⟩ := hm
  simp [quantile_singleton, between]

lemma filteredRecords_singleton (op : OpParams) (r : CellRecord)
    (features : List String) : filteredRecords op [r] features = [r] := by
  simp [filteredRecords, List.enum, List.enumFrom, List.filter_cons,
    maskAll_singleton]

lemma select_singleton (op : OpParams) (r : CellRecord) (channel : String)
    (h : 0 < op.max_cells) : select_channel_records op [r] channel = [r] := by
  simp only [select_channel_records, filteredRecords_singleton,
    List.length_singleton]
  rw [if_neg (by omega)]

lemma length_sampleDet {α : Type _} (seed n : ℕ) (xs : List α) :
    (sampleDet seed n xs).length = min n xs.length := by
  simp [sampleDet, List.length_take, List.length_insertionSort, List.enum_length]

lemma sampleDet_subset {α : Type _} (seed n : ℕ) (xs : List α) :
    sampleDet seed n xs ⊆ xs := by
  intro a ha
  have h1 : a ∈ (List.insertionSort
      (fun a b => sampleKey seed a.1 ≤ sampleKey seed b.1) xs.enum).map Prod.snd :=
    List.take_subset n _ ha
  have h2 : ((List.insertionSort
      (fun a b => sampleKey seed a.1 ≤ sampleKey seed b.1) xs.enum).map
        Prod.snd).Perm xs := by
    have := (List.perm_insertionSort
      (fun a b => sampleKey seed a.1 ≤ sampleKey seed b.1) xs.enum).map Prod.snd
    rwa [List.enum_map_snd] at this
  exact h2.subset h1

lemma predictGrid_succ (est : Model) (r c : ℕ) :
    predictGrid est (r + 1) c =
      predictGrid est r c ++ (List.range c).map fun (x : ℕ) => est (r : ℚ) (x : ℚ) := by
  rw [predictGrid, List.range_succ, List.flatMap_append]
  simp [predictGrid]

lemma length_predictGrid (est : Model) (r c : ℕ) :
    (predictGrid est r c).length = r * c := by
  induction r with
  | zero => simp [predictGrid]
  | succ n ih =>
    rw [predictGrid_succ, List.length_append, ih, List.length_map,
      List.length_range, Nat.succ_mul]

lemma getD_predictGrid (est : Model) (c : ℕ) :
    ∀ r y x, y < r → x < c →
      (predictGrid est r c).getD (y * c + x) 0 = est (y : ℚ) (x : ℚ) := by
  intro r
  induction r with
  | zero => intro y x hy _; omega
  | succ n ih =>
    intro y x hy hx
    rw [predictGrid_succ]
    rcases Nat.lt_or_ge y n with h | h
    · have hb : y * c + x < (predictGrid est n c).length := by
        rw [length_predictGrid]
        have h1 : y * c + x < (y + 1) * c := by rw [Nat.succ_mul]; omega
        exact lt_of_lt_of_le h1 (Nat.mul_le_mul_right c h)
      rw [List.getD_eq_getElem?_getD, List.getElem?_append, if_pos hb,
        ← List.getD_eq_getElem?_getD]
      exact ih y x h hx
    · have hyn : y = n := by omega
      subst hyn
      rw [List.getD_eq_getElem?_getD,
        List.getElem?_append_right (by rw [length_predictGrid]; omega),
        length_predictGrid]
      have hidx : y * c + x - y * c = x := by omega
      rw [hidx, List.getElem?_map, List.getElem?_range hx]
      rfl

lemma buildEntries_keys (fit : ℕ → List (ℚ × ℚ) → List ℚ → Model)
    (op : OpParams) (cfg : Config) (df : List CellRecord) :
    ∀ ks l, buildEntries fit op cfg df ks = .ok l → l.map Prod.fst = ks := by
  intro ks
  induction ks with
  | nil =>
    intro l h
    simp only [buildEntries, Except.ok.injEq] at h
    subst h
    rfl
  | cons k ks ih =>
    intro l h
    simp only [buildEntries] at h
    cases he : get_illumination_models fit op
        (df.filter fun rec => rec.region_index == k) with
    | error e => rw [he] at h; simp [Bind.bind, Except.bind] at h
    | ok ests =>
      rw [he] at h
      cases hr : buildEntries fit op cfg df ks with
      | error e => rw [hr] at h; simp [Bind.bind, Except.bind] at h
      | ok rest =>
        rw [hr] at h
        simp only [Bind.bind, Except.bind, pure, Except.pure,
          Except.ok.injEq] at h
        subst h
        simp [ih rest hr]

lemma regionKeys_nodup (df : List CellRecord) : (regionKeys df).Nodup :=
  (List.perm_insertionSort _ _).symm.nodup
    (List.nodup_dedup (df.map fun rec => rec.region_index))

lemma prepare_ok {fit : ℕ → List (ℚ × ℚ) → List ℚ → Model} {op : OpParams}
    {cfg : Config} {st : OpState} {df : List CellRecord} {st2 : OpState}
    (h : prepare_region_data fit op cfg st df = .ok st2) :
    st2.data_saved = st.data_saved ∧
    ∀ es2, st2.data = some es2 →
      st.data = some es2 ∨ es2.map Prod.fst = regionKeys df := by
  unfold prepare_region_data at h
  split at h
  · injection h with h
    subst h
    exact ⟨rfl, fun es2 he => Or.inl he⟩
  · split at h
    · exact absurd h (by simp)
    · cases hb : buildEntries fit op cfg df (regionKeys df) with
      | error e => rw [hb] at h; simp [Bind.bind, Except.bind] at h
      | ok entries =>
        rw [hb] at h
        simp only [Bind.bind, Except.bind, pure, Except.pure,
          Except.ok.injEq] at h
        subst h
        refine ⟨rfl, fun es2 he => Or.inr ?_⟩
        injection he with he
        rw [← he]
        exact buildEntries_keys fit op cfg df (regionKeys df) entries hb

lemma save_ok {st : OpState} {sw : OpState × List ℕ}
    (h : save_region_data st = .ok sw) :
    ∃ es, st.data = some es ∧ sw.1.data = some es ∧ sw.1.data_saved = true := by
  unfold save_region_data at h
  split at h
  · exact absurd h (by simp)
  · rename_i es hd
    split at h
    · rename_i hs
      injection h with h
      subst h
      exact ⟨es, hd, hd, hs⟩
    · injection h with h
      subst h
      exact ⟨es, hd, hd, rfl⟩

lemma stepOp_saved (fit : ℕ → List (ℚ × ℚ) → List ℚ → Model) (op : OpParams)
    (cfg : Config) (st : OpState) (c : CacheOp) (h : st.data_saved = true) :
    (stepOp fit op cfg st c).1.data_saved = true ∧
    (stepOp fit op cfg st c).2 = [] := by
  cases c with
  | prep df =>
    simp only [stepOp]
    cases hp : prepare_region_data fit op cfg st df with
    | error e => exact ⟨h, rfl⟩
    | ok st2 =>
      exact ⟨(prepare_ok hp).1.trans h, rfl⟩
  | persist =>
    simp only [stepOp]
    cases hs : save_region_data st with
    | error e => exact ⟨h, rfl⟩
    | ok sw =>
      obtain ⟨es, hst, hdata, hsaved⟩ := save_ok hs
      have hw : sw.2 = [] := by
        unfold save_region_data at hs
        split at hs
        · exact absurd hs (by simp)
        · split at hs
          · injection hs with hs
            subst hs
            rfl
          · rename_i hsf
            exact absurd h hsf
      exact ⟨hsaved, hw⟩

lemma stepOp_inv (fit : ℕ → List (ℚ × ℚ) → List ℚ → Model) (op : OpParams)
    (cfg : Config) (st : OpState) (c : CacheOp) (hinv : CacheInv st) :
    CacheInv (stepOp fit op cfg st c).1 := by
  cases c with
  | prep df =>
    simp only [stepOp]
    cases hp : prepare_region_data fit op cfg st df with
    | error e => exact hinv
    | ok st2 =>
      intro es2 he
      rcases (prepare_ok hp).2 es2 he with h | h
      · exact hinv es2 h
      · rw [h]
        exact regionKeys_nodup df
  | persist =>
    simp only [stepOp]
    cases hs : save_region_data st with
    | error e => exact hinv
    | ok sw =>
      intro es2 he
      obtain ⟨es, hst, hdata, _⟩ := save_ok hs
      rw [hdata] at he
      injection he with he
      exact hinv es2 (he ▸ hst)

lemma runOps_saved (fit : ℕ → List (ℚ × ℚ) → List ℚ → Model) (op : OpParams)
    (cfg : Config) : ∀ (ops : List CacheOp) (st : OpState),
    st.data_saved = true → (runOps fit op cfg st ops).2 = [] := by
  intro ops
  induction ops with
  | nil => intro st _; rfl
  | cons c cs ih =>
    intro st h
    obtain ⟨h1, h2⟩ := stepOp_saved fit op cfg st c h
    simp only [runOps]
    rw [h2, ih _ h1]
    rfl

lemma runOps_count (fit : ℕ → List (ℚ × ℚ) → List ℚ → Model) (op : OpParams)
    (cfg : Config) (r : ℕ) : ∀ (ops : List CacheOp) (st : OpState),
    CacheInv st → ((runOps fit op cfg st ops).2.count r) ≤ 1 := by
  intro ops
  induction ops with
  | nil => intro st _; simp [runOps]
  | cons c cs ih =>
    intro st hinv
    simp only [runOps, List.count_append]
    cases c with
    | prep df =>
      have h2 : (stepOp fit op cfg st (.prep df)).2 = [] := by
        simp only [stepOp]
        cases prepare_region_data fit op cfg st df <;> rfl
      rw [h2]
      simpa using ih _ (stepOp_inv fit op cfg st _ hinv)
    | persist =>
      by_cases hs : st.data_saved = true
      · obtain ⟨_, h2⟩ := stepOp_saved fit op cfg st .persist hs
        rw [h2]
        simpa using ih _ (stepOp_inv fit op cfg st _ hinv)
      · have hsf : st.data_saved = false := by
          exact Bool.not_eq_true _ ▸ (by simpa using hs)
        cases hd : st.data with
        | none =>
          have hstep : stepOp fit op cfg st .persist = (st, []) := by
            simp [stepOp, save_region_data, hd]
          rw [hstep]
          simpa using ih st hinv
        | some es =>
          have hstep : stepOp fit op cfg st .persist =
              ({ st with data_saved := true }, es.map Prod.fst) := by
            simp [stepOp, save_region_data, hd, hsf]
          rw [hstep]
          have hrest :
              (runOps fit op cfg { st with data_saved := true } cs).2 = [] :=
            runOps_saved fit op cfg cs _ rfl
          rw [hrest]
          simpa using List.nodup_iff_count_le_one.mp (hinv es hd) r

-- THEOREMS

/-- C1: for every 5D tile of an integer element type and every prepared
region, `_run` returns a tile with the same five extents and the same dtype,
every element of the result lies within the dtype's representable
`[min, max]` bounds, and values of the corrected float tile that exceed a
bound saturate to that bound. -/
theorem run_preserves_shape_dtype_and_clips
    (op : OpParams) (cfg : Config) (st : OpState) (tile : Tile) (ti : TileIndices)
    (es : List (ℕ × RegionCacheEntry)) (entry : RegionCacheEntry)
    (hd : st.data = some es) (hlk : es.lookup ti.region_index = some entry)
    (hint : tile.dtype.isInt = true) :
    ∃ (dinfo : IInfo) (out : Tile),
      iinfo tile.dtype = .ok dinfo ∧
      run op cfg st tile ti = .ok out ∧
      out.cycles = tile.cycles ∧ out.zplanes = tile.zplanes ∧
      out.channels = tile.channels ∧ out.height = tile.height ∧
      out.width = tile.width ∧ out.dtype = tile.dtype ∧
      ∀ cyc zp ch y x,
        (dinfo.min : ℚ) ≤ out.data cyc zp ch y x ∧
        out.data cyc zp ch y x ≤ (dinfo.max : ℚ) ∧
        ((dinfo.max : ℚ) < correctedFloat op cfg entry.imgs
            (ti.tile_y * cfg.tile_height) (ti.tile_x * cfg.tile_width)
            tile.data cyc zp ch y x →
          out.data cyc zp ch y x = (dinfo.max : ℚ)) ∧
        (correctedFloat op cfg entry.imgs
            (ti.tile_y * cfg.tile_height) (ti.tile_x * cfg.tile_width)
            tile.data cyc zp ch y x < (dinfo.min : ℚ) →
          out.data cyc zp ch y x = (dinfo.min : ℚ)) := by
  obtain ⟨dinfo, hinfo, hle⟩ := iinfo_of_isInt hint
  refine ⟨dinfo,
    { tile with data := fun cyc zp ch y x =>
        ((truncToInt (clip (correctedFloat op cfg entry.imgs
          (ti.tile_y * cfg.tile_height) (ti.tile_x * cfg.tile_width)
          tile.data cyc zp ch y x) dinfo.min dinfo.max) : ℤ) : ℚ) },
    hinfo, ?_, rfl, rfl, rfl, rfl, rfl, rfl, ?_⟩
  · simp [run, hd, hlk, hinfo]
  · intro cyc zp ch y x
    exact clipped_bounds hle _

/-- C1 witness: on a concrete prepared uint8 tile the hypotheses hold and
`_run` succeeds with the dtype preserved. -/
theorem run_preserves_shape_dtype_and_clips_witness :
    exState.data = some exEs ∧ exEs.lookup exTi.region_index = some exEntry ∧
    exTile.dtype.isInt = true ∧
    ∃ (dinfo : IInfo) (out : Tile),
      iinfo exTile.dtype = .ok dinfo ∧
      run exOp exCfg exState exTile exTi = .ok out ∧
      out.dtype = exTile.dtype := by
  refine ⟨rfl, rfl, rfl, ?_⟩
  obtain ⟨dinfo, out, h1, h2, _, _, _, _, _, hdt, _⟩ :=
    run_preserves_shape_dtype_and_clips exOp exCfg exState exTile exTi
      exEs exEntry rfl rfl rfl
  exact ⟨dinfo, out, h1, h2, hdt⟩

/-- C2: during `_run`, a channel-mapping entry whose target is the sentinel
"all" divides every (cycle, z, channel, row, column) element of the tile by
the sliced surface, while an entry with a specific target divides only the
(z, row, column) sub-array at the resolved (cycle, channel) coordinate and
leaves every element at another (cycle, channel) coordinate unchanged. -/
theorem applyEntry_all_vs_specific_target
    (cfg : Config) (imgs : List (String × Image)) (r c : ℕ) (t : TileData)
    (src tgt : String) (cyc zp ch y x : ℕ) :
    (applyEntry cfg imgs r c t (src, "all") cyc zp ch y x
      = t cyc zp ch y x / imageAt imgs src (r + y) (c + x)) ∧
    (tgt ≠ "all" →
      (applyEntry cfg imgs r c t (src, tgt) (cfg.get_channel_coordinates tgt).1 zp
          (cfg.get_channel_coordinates tgt).2 y x
        = t (cfg.get_channel_coordinates tgt).1 zp (cfg.get_channel_coordinates tgt).2 y x
          / imageAt imgs src (r + y) (c + x)) ∧
      (cyc ≠ (cfg.get_channel_coordinates tgt).1 ∨ ch ≠ (cfg.get_channel_coordinates tgt).2 →
        applyEntry cfg imgs r c t (src, tgt) cyc zp ch y x = t cyc zp ch y x)) := by
  refine ⟨by simp [applyEntry], fun hne => ⟨?_, fun hor => ?_⟩⟩
  · simp [applyEntry, hne]
  · simp only [applyEntry, hne, if_false, reduceIte]
    rw [if_neg]
    rcases hor with h | h
    · exact fun hc => h hc.1
    · exact fun hc => h hc.2

/-- C2 witness: the "all" entry divides a concrete element, and a specific
"DAPI" entry changes its resolved coordinate but not a distinct cycle. -/
theorem applyEntry_all_vs_specific_target_witness :
    (applyEntry exCfg exEntry.imgs 0 0 exTile.data ("DAPI", "all") 0 0 0 0 0
      = exTile.data 0 0 0 0 0 / imageAt exEntry.imgs "DAPI" 0 0) ∧
    (applyEntry exCfg exEntry.imgs 0 0 exTile.data ("DAPI", "DAPI") 1 0 0 0 0
      = exTile.data 1 0 0 0 0) := by
  constructor
  · exact (applyEntry_all_vs_specific_target exCfg exEntry.imgs 0 0 exTile.data
      "DAPI" "all" 0 0 0 0 0).1
  · exact ((applyEntry_all_vs_specific_target exCfg exEntry.imgs 0 0 exTile.data
      "DAPI" "DAPI" 1 0 0 0 0).2 (by decide)).2 (Or.inl (by decide))

/-- C8: when the cache holds no entry for the tile's `region_index`, `_run`
fails with the unprepared-region error instead of returning a tile or
inserting a default entry. -/
theorem run_unprepared_region_error
    (op : OpParams) (cfg : Config) (st : OpState) (tile : Tile) (ti : TileIndices)
    (es : List (ℕ × RegionCacheEntry))
    (hd : st.data = some es) (hlk : es.lookup ti.region_index = none) :
    run op cfg st tile ti = .error .unpreparedRegion := by
  simp [run, hd, hlk]

/-- C8 witness: a tile referencing region 5 against a cache holding only
region 0. -/
theorem run_unprepared_region_error_witness :
    exState.data = some exEs ∧ exEs.lookup exTi5.region_index = none ∧
    run exOp exCfg exState exTile exTi5 = .error .unpreparedRegion :=
  ⟨rfl, rfl, run_unprepared_region_error exOp exCfg exState exTile exTi5 exEs rfl rfl⟩

/-- C9: `__init__` raises the invalid-filter-range error exactly when the
resolved `filter_range` is `None`, not a 2-element list, or has a bound
outside `[0, 1]`; a 2-element ascending range with both bounds in `[0, 1]`
is accepted unchanged. -/
theorem filter_range_validation_iff (fr : Option (List ℚ)) :
    (initFilterRange fr = .error .invalidFilterRange ↔
      fr = none ∨ ∃ l, fr = some l ∧ (l.length ≠ 2 ∨ ∃ v ∈ l, v < 0 ∨ 1 < v)) ∧
    (∀ lo hi : ℚ, 0 ≤ lo → lo ≤ hi → hi ≤ 1 →
      initFilterRange (some [lo, hi]) = .ok [lo, hi]) := by
  constructor
  · cases fr with
    | none => simp [initFilterRange]
    | some l =>
      rw [initFilterRange_some_eq]
      by_cases hcond : l.length = 2 ∧ ∀ v ∈ l, 0 ≤ v ∧ v ≤ 1
      · rw [if_pos hcond]
        simp only [reduceCtorEq, false_iff]
        rintro (hnone | ⟨l2, hl2, hbad⟩)
        · exact hnone
        · injection hl2 with h
          subst h
          rcases hbad with h | ⟨v, hv, hout⟩
          · exact h hcond.1
          · rcases hout with h | h
            · exact absurd (hcond.2 v hv).1 (not_le.mpr h)
            · exact absurd (hcond.2 v hv).2 (not_le.mpr h)
      · rw [if_neg hcond]
        constructor
        · intro _
          refine Or.inr ⟨l, rfl, ?_⟩
          by_cases h2 : l.length = 2
          · push_neg at hcond
            obtain ⟨v, hv, hout⟩ := hcond h2
            by_cases h0 : 0 ≤ v
            · exact Or.inr ⟨v, hv, Or.inr (hout h0)⟩
            · exact Or.inr ⟨v, hv, Or.inl (not_le.mp h0)⟩
          · exact Or.inl h2
        · intro _
          rfl
  · intro lo hi h0 hlh h1
    have hlo1 : lo ≤ 1 := le_trans hlh h1
    have hhi0 : 0 ≤ hi := le_trans h0 hlh
    simp [initFilterRange, h0, hlo1, hhi0, h1]

/-- C9 witness: the default range `[0.1, 0.9]` is accepted and `None` is
rejected. -/
theorem filter_range_validation_iff_witness :
    (0 : ℚ) ≤ 1/10 ∧ (1/10 : ℚ) ≤ 9/10 ∧ (9/10 : ℚ) ≤ 1 ∧
    initFilterRange (some [1/10, 9/10]) = .ok [1/10, 9/10] ∧
    initFilterRange none = .error .invalidFilterRange := by
  refine ⟨by norm_num, by norm_num, by norm_num, ?_, ?_⟩
  · exact (filter_range_validation_iff (some [1/10, 9/10])).2 (1/10) (9/10)
      (by norm_num) (by norm_num) (by norm_num)
  · exact (filter_range_validation_iff none).1.mpr (Or.inl rfl)

/-- C10: `_run` only returns a corrected tile for integer element types:
for every tile with a floating-point dtype it fails (the integer type-info
query rejects the dtype before any arithmetic), a restriction the spec does
not state. -/
theorem run_rejects_float_dtype
    (op : OpParams) (cfg : Config) (st : OpState) (tile : Tile) (ti : TileIndices)
    (hf : tile.dtype.isInt = false) :
    ∀ out, run op cfg st tile ti ≠ .ok out := by
  intro out h
  rcases hd : st.data with _ | es
  · simp [run, hd] at h
  · rcases hlk : es.lookup ti.region_index with _ | entry
    · simp [run, hd, hlk] at h
    · have hi : iinfo tile.dtype = .error .invalidDtype := by
        rcases hdt : tile.dtype <;> rw [hdt] at hf <;>
          first | rfl | simp [Dtype.isInt] at hf
      simp [run, hd, hlk, hi] at h

/-- C10 witness: a float32 tile for a prepared region is rejected. -/
theorem run_rejects_float_dtype_witness :
    exTileF.dtype.isInt = false ∧
    run exOp exCfg exState exTileF exTi ≠ .ok exTileF :=
  ⟨rfl, run_rejects_float_dtype exOp exCfg exState exTileF exTi rfl exTileF⟩

/-- C3: the combined quantile filter keeps record `i` exactly when, for every
requested feature, the record's value lies within the inclusive interval
between the low-quantile and high-quantile thresholds computed from the
configured `filter_range`; the combined mask is the AND of the per-feature
masks. -/
theorem filter_mask_iff_within_quantile_range
    (op : OpParams) (df : List CellRecord) (features : List String) (i : ℕ)
    (hne : features ≠ []) (hlt : i < df.length) :
    maskAll (get_filter_masks op df features) i = true ↔
      ∀ c ∈ features,
        quantile (df.map fun r2 => r2.feat c) (op.filter_range.getD 0 0)
            ≤ (df.getD i default).feat c ∧
        (df.getD i default).feat c
            ≤ quantile (df.map fun r2 => r2.feat c) (op.filter_range.getD 1 0) := by
  unfold maskAll get_filter_masks
  rw [List.all_eq_true, List.forall_mem_map]
  constructor
  · intro h c hc
    have hx := h c hc
    rw [getD_map_of_lt _ _ _ _ default hlt] at hx
    simpa [between] using hx
  · intro h c hc
    rw [getD_map_of_lt _ _ _ _ default hlt]
    simp only [between, Bool.and_eq_true, decide_eq_true_eq]
    exact h c hc

/-- C3 witness: the characterization instantiated at three concrete records
with diameters 4, 5, 6, one feature, and record index 1. -/
theorem filter_mask_iff_within_quantile_range_witness :
    maskAll (get_filter_masks exOp exDf ["cell_diameter"]) 1 = true ↔
      ∀ c ∈ ["cell_diameter"],
        quantile (exDf.map fun r2 => r2.feat c) (exOp.filter_range.getD 0 0)
            ≤ (exDf.getD 1 default).feat c ∧
        (exDf.getD 1 default).feat c
            ≤ quantile (exDf.map fun r2 => r2.feat c) (exOp.filter_range.getD 1 0) :=
  filter_mask_iff_within_quantile_range exOp exDf ["cell_diameter"] 1
    (by decide) (by decide)

/-- C4: for a channel whose selection is non-empty, model fitting fails with
the degenerate-signal error exactly when the mean of the selected intensity
values is within the absolute tolerance of zero (a closeness check, not
exact equality); otherwise the regressor is fit on the intensities divided
by their mean. -/
theorem fit_degenerate_iff_mean_close_to_zero
    (fit : ℕ → List (ℚ × ℚ) → List ℚ → Model) (op : OpParams)
    (df : List CellRecord) (channel : String)
    (hne : select_channel_records op df channel ≠ []) :
    (fit_channel fit op df channel = .error .degenerateSignal ↔
      |mean ((select_channel_records op df channel).map
        fun rec => rec.feat (channelFeature channel))| ≤ ATOL) ∧
    (¬ |mean ((select_channel_records op df channel).map
        fun rec => rec.feat (channelFeature channel))| ≤ ATOL →
      fit_channel fit op df channel = .ok (fit op.n_estimators
        ((select_channel_records op df channel).map fun rec => (rec.ry, rec.rx))
        (((select_channel_records op df channel).map
          fun rec => rec.feat (channelFeature channel)).map
            fun v => v / mean ((select_channel_records op df channel).map
              fun rec => rec.feat (channelFeature channel))))) := by
  have h0 : ¬ (select_channel_records op df channel).length = 0 := by
    simpa [List.length_eq_zero] using hne
  constructor
  · constructor
    · intro h
      by_cases hm : |mean ((select_channel_records op df channel).map
          fun rec => rec.feat (channelFeature channel))| ≤ ATOL
      · exact hm
      · simp [fit_channel, h0, hm] at h
    · intro hm
      simp [fit_channel, h0, hm]
  · intro hm
    simp [fit_channel, h0, hm]

/-- C4 witness: the characterization instantiated at a concrete one-record
data set, whose selection is non-empty. -/
theorem fit_degenerate_iff_mean_close_to_zero_witness :
    fit_channel exFit exOp exDf1 "DAPI" = .error .degenerateSignal ↔
      |mean ((select_channel_records exOp exDf1 "DAPI").map
        fun rec => rec.feat (channelFeature "DAPI"))| ≤ ATOL :=
  (fit_degenerate_iff_mean_close_to_zero exFit exOp exDf1 "DAPI"
    (by rw [show exDf1 = [exRec 5] from rfl, select_singleton exOp (exRec 5) "DAPI"
      (by norm_num [exOp])]; simp)).1

/-- C6: the fitter downsamples exactly when the filtered record count exceeds
`max_cells`; in that case the selection is the seeded deterministic sample,
has length exactly `max_cells`, and is a subset of the filtered records;
otherwise the filtered records are used unchanged; identical input yields an
identical selection. -/
theorem downsample_iff_above_max_cells (op : OpParams) (df : List CellRecord)
    (channel : String) :
    (op.max_cells <
        (filteredRecords op df (channelFilterFeatures op channel)).length →
      select_channel_records op df channel =
        sampleDet SEED op.max_cells
          (filteredRecords op df (channelFilterFeatures op channel)) ∧
      (select_channel_records op df channel).length = op.max_cells ∧
      select_channel_records op df channel ⊆
        filteredRecords op df (channelFilterFeatures op channel)) ∧
    ((filteredRecords op df (channelFilterFeatures op channel)).length ≤
        op.max_cells →
      select_channel_records op df channel =
        filteredRecords op df (channelFilterFeatures op channel)) ∧
    (∀ df2, df2 = df →
      select_channel_records op df2 channel =
        select_channel_records op df channel) := by
  refine ⟨fun h => ?_, fun h => ?_, fun df2 h2 => by rw [h2]⟩
  · have hsel : select_channel_records op df channel =
        sampleDet SEED op.max_cells
          (filteredRecords op df (channelFilterFeatures op channel)) := by
      simp only [select_channel_records]
      rw [if_pos h]
    refine ⟨hsel, ?_, ?_⟩
    · rw [hsel, length_sampleDet]
      exact min_eq_left (le_of_lt h)
    · rw [hsel]
      exact sampleDet_subset _ _ _
  · simp only [select_channel_records]
    rw [if_neg (not_lt.mpr h)]

/-- C6 witness: with `max_cells = 0` a single filtered record is downsampled
to the empty selection of length exactly `max_cells`. -/
theorem downsample_iff_above_max_cells_witness :
    exOpZero.max_cells <
      (filteredRecords exOpZero exDf1 (channelFilterFeatures exOpZero "DAPI")).length ∧
    select_channel_records exOpZero exDf1 "DAPI" =
      sampleDet SEED exOpZero.max_cells
        (filteredRecords exOpZero exDf1 (channelFilterFeatures exOpZero "DAPI")) ∧
    (select_channel_records exOpZero exDf1 "DAPI").length = exOpZero.max_cells := by
  have hcap : exOpZero.max_cells <
      (filteredRecords exOpZero exDf1 (channelFilterFeatures exOpZero "DAPI")).length := by
    rw [show exDf1 = [exRec 5] from rfl,
      filteredRecords_singleton exOpZero (exRec 5) (channelFilterFeatures exOpZero "DAPI")]
    simp [exOpZero]
  obtain ⟨h1, h2, _⟩ :=
    (downsample_iff_above_max_cells exOpZero exDf1 "DAPI").1 hcap
  exact ⟨hcap, h1, h2⟩

/-- C5: the renderer produces one float32 image per fitted channel model,
of shape (region_height_tiles × tile_height, region_width_tiles ×
tile_width), whose pixel at every integer coordinate (ry, rx) equals that
channel's model prediction there — a dense exhaustive evaluation of every
pixel of the region. -/
theorem illumination_images_dense_prediction (cfg : Config)
    (ests : List (String × Model)) (i : ℕ) (hi : i < ests.length) :
    (get_illumination_images cfg ests).length = ests.length ∧
    ((get_illumination_images cfg ests).getD i default).1 =
      (ests.getD i default).1 ∧
    ((get_illumination_images cfg ests).getD i default).2.height =
      cfg.region_height * cfg.tile_height ∧
    ((get_illumination_images cfg ests).getD i default).2.width =
      cfg.region_width * cfg.tile_width ∧
    ((get_illumination_images cfg ests).getD i default).2.dtype = .float32 ∧
    ((get_illumination_images cfg ests).getD i default).2.pix.length =
      (cfg.region_height * cfg.tile_height) *
        (cfg.region_width * cfg.tile_width) ∧
    ∀ ry rx, ry < cfg.region_height * cfg.tile_height →
      rx < cfg.region_width * cfg.tile_width →
      ((get_illumination_images cfg ests).getD i default).2.pix.getD
          (ry * (cfg.region_width * cfg.tile_width) + rx) 0 =
        (ests.getD i default).2 (ry : ℚ) (rx : ℚ) := by
  have hkey : (get_illumination_images cfg ests).getD i default =
      ((ests.getD i default).1,
        ⟨cfg.region_height * cfg.tile_height, cfg.region_width * cfg.tile_width,
          Dtype.float32,
          predictGrid (ests.getD i default).2
            (cfg.region_height * cfg.tile_height)
            (cfg.region_width * cfg.tile_width)⟩) := by
    simp only [get_illumination_images]
    rw [getD_map_of_lt _ _ _ _ default hi]
  refine ⟨by simp [get_illumination_images], ?_, ?_, ?_, ?_, ?_, ?_⟩
  · rw [hkey]
  · rw [hkey]
  · rw [hkey]
  · rw [hkey]
  · rw [hkey]
    exact length_predictGrid _ _ _
  · intro ry rx hry hrx
    rw [hkey]
    exact getD_predictGrid _ _ _ ry rx hry hrx

/-- C5 witness: the renderer applied to one concrete constant model. -/
theorem illumination_images_dense_prediction_witness :
    0 < exEsts.length ∧
    (get_illumination_images exCfg exEsts).length = exEsts.length ∧
    ((get_illumination_images exCfg exEsts).getD 0 default).2.height =
      exCfg.region_height * exCfg.tile_height ∧
    ((get_illumination_images exCfg exEsts).getD 0 default).2.dtype =
      .float32 := by
  refine ⟨by simp [exEsts], ?_⟩
  obtain ⟨h1, _, h3, _, h5, _⟩ :=
    illumination_images_dense_prediction exCfg exEsts 0 (by simp [exEsts])
  exact ⟨h1, h3, h5⟩

/-- C7: the cache operations are idempotent — `prepare_region_data` on an
already-populated cache is a no-op returning the state unchanged, and a
second `save_region_data` after a successful one returns without writing —
and over any sequence of calls from a fresh operator each region's image
artifact is written at most once. -/
theorem cache_prepare_persist_idempotent
    (fit : ℕ → List (ℚ × ℚ) → List ℚ → Model) (op : OpParams) (cfg : Config) :
    (∀ st df es, st.data = some es →
      prepare_region_data fit op cfg st df = .ok st) ∧
    (∀ st sw, save_region_data st = .ok sw →
      save_region_data sw.1 = .ok (sw.1, [])) ∧
    (∀ (ops : List CacheOp) (r : ℕ),
      ((runOps fit op cfg initState ops).2.count r) ≤ 1) := by
  refine ⟨?_, ?_, ?_⟩
  · intro st df es hd
    simp [prepare_region_data, hd]
  · intro st sw h
    obtain ⟨es, _, hdata, hsaved⟩ := save_ok h
    simp [save_region_data, hdata, hsaved]
  · intro ops r
    exact runOps_count fit op cfg r ops initState
      (fun es h => Option.noConfusion h)

/-- C7 witness: concrete idempotency — a populated state is untouched by
`prepare_region_data`, the second persist writes nothing, and a double
persist from fresh state writes region 0 at most once. -/
theorem cache_prepare_persist_idempotent_witness :
    exState.data = some exEs ∧
    prepare_region_data exFit exOp exCfg exState exDf = .ok exState ∧
    save_region_data exState =
      .ok ({ exState with data_saved := true }, exEs.map Prod.fst) ∧
    save_region_data { exState with data_saved := true } =
      .ok ({ exState with data_saved := true }, []) ∧
    ((runOps exFit exOp exCfg initState
      [CacheOp.persist, CacheOp.persist]).2.count 0) ≤ 1 := by
  obtain ⟨h1, h2, h3⟩ := cache_prepare_persist_idempotent exFit exOp exCfg
  refine ⟨rfl, h1 exState exDf exEs rfl, rfl, ?_,
    h3 [CacheOp.persist, CacheOp.persist] 0⟩
  have := h2 exState ({ exState with data_saved := true }, exEs.map Prod.fst) rfl
  simpa using this

end Cytokit
